import Mathlib

/-!
Shallow embedding of `knx_log_splitter.py` (repository `knx_log_splitter`).

The embedding models the four core components of the program:

* the frame decoders `extract_group_address` and
  `KNXSplitter.get_physical_address` (here `get_physical_address`),
* the filter normalisation and output-filename derivation performed in
  `KNXSplitter.__init__` (`normalizeFilters`, `outputFilename`),
* the classification/partition loop of `KNXSplitter.split_and_save`
  (`stepTelegram`, `splitTelegrams`),
* the textual renderer `insert_comments` that rewrites telegram lines and
  aligns the per-telegram comments (`renderTelegramLine`,
  `processTelegramLine`, `insert_comments`).

Python strings are modelled as Lean `String`s; the string operations the
program uses (`split`, `replace`, `lstrip`, `strip`, `startswith`,
`endswith`, slicing, `int(_, 16)`) are modelled as executable functions on
`List Char` below.  `int(x, 16)` is modelled for operands consisting of
plain hexadecimal digits (upper or lower case); the additional forms
Python's `int` accepts (sign or whitespace prefixes, underscores) are
treated as parse failures here — no such operand can arise from slicing a
hex-digit frame, which is the only way the program calls `int`.
-/

namespace KnxSplit

/-- Python `str.isspace` for the ASCII whitespace characters
(the inputs handled by the program are ASCII). -/
def pyIsSpace (c : Char) : Bool :=
  c = ' ' || c = '\t' || c = '\n' || c = '\x0d' || c = '\x0b' || c = '\x0c'

/-- Python `str.lstrip()` (no argument: strip leading whitespace). -/
def pyLStrip (xs : List Char) : List Char := xs.dropWhile pyIsSpace

/-- Python `str.strip()` (no argument: strip whitespace on both ends). -/
def pyStrip (xs : List Char) : List Char :=
  ((xs.dropWhile pyIsSpace).reverse.dropWhile pyIsSpace).reverse

/-- Python `str.strip(c)` for a single character argument, as used by
`.strip('_')` in `KNXSplitter.__init__`. -/
def pyStripChar (c : Char) (xs : List Char) : List Char :=
  ((xs.dropWhile (· = c)).reverse.dropWhile (· = c)).reverse

/-- Split a character list at the first occurrence of (non-empty) `sep`:
`some (before, after)` when `sep` occurs, `none` otherwise.  Python's
`s.split(sep)` is expressed through iterated `splitFirst`. -/
def splitFirst (sep : List Char) : List Char → Option (List Char × List Char)
  | [] => if sep = [] then some ([], []) else none
  | c :: rest =>
    if sep.isPrefixOf (c :: rest) then some ([], (c :: rest).drop sep.length)
    else (splitFirst sep rest).map (fun p => (c :: p.1, p.2))

/-- Whether `sep` occurs as a substring of `xs` (Python `sep in xs`). -/
def containsSub (xs sep : List Char) : Bool := (splitFirst sep xs).isSome

/-- Helper for `removeAll`: when the skip counter is positive the next
character was already consumed as part of a replaced occurrence. -/
def removeAllAux (pat : List Char) : Nat → List Char → List Char
  | _, [] => []
  | n + 1, _ :: rest => removeAllAux pat n rest
  | 0, c :: rest =>
    if pat ≠ [] ∧ pat.isPrefixOf (c :: rest) then removeAllAux pat (pat.length - 1) rest
    else c :: removeAllAux pat 0 rest

/-- Python `s.replace(pat, '')`: remove every (leftmost, non-overlapping)
occurrence of `pat`.  The program only ever replaces by the empty string
(`comments[comment_idx].replace('<!-- ', '')`). -/
def removeAll (pat xs : List Char) : List Char := removeAllAux pat 0 xs

/-- Python `s.startswith(pre)` on the modelled strings. -/
def pyStartsWith (s pre : String) : Bool := pre.data.isPrefixOf s.data

/-- Python `s.endswith(suf)` on the modelled strings. -/
def pyEndsWith (s suf : String) : Bool := suf.data.isSuffixOf s.data

/-- Value of one hexadecimal digit, `none` for any other character
(48–57 are `'0'`–`'9'`, 97–102 are `'a'`–`'f'`, 65–70 are `'A'`–`'F'`). -/
def hexDigitVal (c : Char) : Option Nat :=
  if 48 ≤ c.toNat ∧ c.toNat ≤ 57 then some (c.toNat - 48)
  else if 97 ≤ c.toNat ∧ c.toNat ≤ 102 then some (c.toNat - 97 + 10)
  else if 65 ≤ c.toNat ∧ c.toNat ≤ 70 then some (c.toNat - 65 + 10)
  else none

/-- Accumulating parser behind `hexVal`. -/
def hexValAux : List Char → Nat → Option Nat
  | [], acc => some acc
  | c :: cs, acc =>
    match hexDigitVal c with
    | some d => hexValAux cs (acc * 16 + d)
    | none => none

/-- Python `int(x, 16)` on a string of hexadecimal digits; `none` models
the `ValueError` the program catches (raised e.g. for the empty slice or
for non-hex characters). -/
def hexVal (cs : List Char) : Option Nat :=
  if cs = [] then none else hexValAux cs 0

/-- Python `int(rawdata[start:start+len], 16)`: slice then parse. -/
def sliceHex (rawdata : String) (start len : Nat) : Option Nat :=
  hexVal ((rawdata.data.drop start).take len)

/-- Rendering `f"{haupt}/{mittel}/{unter}"` of a decoded group address. -/
def renderGA (haupt mittel unter : Nat) : String :=
  toString haupt ++ "/" ++ toString mittel ++ "/" ++ toString unter

/-- Rendering `f"{haupt}.{linie}.{teilnehmer}"` of a decoded physical
address. -/
def renderPA (haupt linie teilnehmer : Nat) : String :=
  toString haupt ++ "." ++ toString linie ++ "." ++ toString teilnehmer

/-- `extract_group_address` (src/knx_log_splitter.py, lines 10–64), with
the `verbose` tracing dropped (it only prints).  The order of the guards
is the order of the Python code: acknowledgement check, the two length
checks, then the two byte parses; an exception in either parse yields
`""`. -/
def extract_group_address (rawdata : String) : String :=
  if pyEndsWith rawdata "CC" = true ∧ rawdata.length ≤ 24 then "IGNORE"
  else if rawdata.length < 28 then "IGNORE"
  else if rawdata.length < 28 + 4 then "IGNORE"
  else
    match sliceHex rawdata 28 2, sliceHex rawdata 30 2 with
    | some byte1, some byte2 =>
      renderGA ((byte1 &&& 0xF0) >>> 4) (byte1 &&& 0x0F) byte2
    | _, _ => ""

/-- `KNXSplitter.get_physical_address` (lines 88–121).  There is no upper
length guard: for a frame of length 26 the second slice is empty and the
parse failure yields `""`; for length 27 the second slice is a single hex
digit. -/
def get_physical_address (rawdata : String) : String :=
  if pyEndsWith rawdata "CC" = true then ""
  else if rawdata.length < 26 then ""
  else
    match sliceHex rawdata 24 2, sliceHex rawdata 26 2 with
    | some byte1, some byte2 =>
      renderPA ((byte1 &&& 0xF0) >>> 4) (byte1 &&& 0x0F) byte2
    | _, _ => ""

/-- One telegram record of the input log.  `rawData` models the optional
`@RawData` attribute (`none` = attribute missing); `rest` stands for the
opaque remaining attributes, which the partition pass never inspects. -/
structure Telegram where
  rawData : Option String
  rest : Nat
deriving DecidableEq, Repr

/-- `telegram.get('@RawData', '')`. -/
def getRaw (t : Telegram) : String := t.rawData.getD ""

/-- The two output streams of the split. -/
inductive Dest where
  | filtered
  | other
deriving DecidableEq, Repr

/-- State threaded through the loop of `KNXSplitter.split_and_save`
(lines 180–227): the two accumulated `(telegram, comment)` collections
and the routing variables `last_effective_ga` / `last_destination`. -/
structure SplitState where
  lastEffectiveGA : Option String
  lastDest : Option Dest
  filtered : List (Telegram × String)
  other : List (Telegram × String)

/-- Loop state before the first iteration. -/
def initState : SplitState := ⟨none, none, [], []⟩

/-- `rawdata.endswith('CC') and len(rawdata) <= 24` (line 189). -/
def isAckRaw (raw : String) : Bool :=
  pyEndsWith raw "CC" && decide (raw.length ≤ 24)

/-- The comment built for a telegram without a usable group address
(line 207). -/
def ignComment (raw : String) : String :=
  "<!-- GA: IGNORE (unbestimmt) ; QA: " ++ get_physical_address raw ++ " -->"

/-- The comment built for a decoded data telegram (line 216). -/
def gaComment (ga phys : String) : String :=
  "<!-- GA: " ++ ga ++ " ; QA: " ++ phys ++ " -->"

/-- One iteration of the loop of `KNXSplitter.split_and_save`
(lines 182–227), over an already-normalised filter list. -/
def stepTelegram (filters : List String) (s : SplitState) (t : Telegram) : SplitState :=
  let rawdata := getRaw t
  if rawdata = "" then s
  else if isAckRaw rawdata = true then
    if s.lastDest = some Dest.other then
      { s with other := s.other ++ [(t, "")] }
    else
      { s with filtered := s.filtered ++ [(t, "")] }
  else
    let group_address := extract_group_address rawdata
    if group_address = "IGNORE" ∨ group_address = "" then
      { s with filtered := s.filtered ++ [(t, ignComment rawdata)],
               lastDest := some Dest.filtered }
    else if filters.any (fun f => pyStartsWith group_address f) = true then
      { s with lastEffectiveGA := some group_address,
               filtered := s.filtered ++
                 [(t, gaComment group_address (get_physical_address rawdata))],
               lastDest := some Dest.filtered }
    else
      { s with lastEffectiveGA := some group_address,
               other := s.other ++
                 [(t, gaComment group_address (get_physical_address rawdata))],
               lastDest := some Dest.other }

/-- The whole partition loop of `KNXSplitter.split_and_save` over an
already-normalised filter list. -/
def splitTelegrams (filters : List String) (ts : List Telegram) : SplitState :=
  ts.foldl (stepTelegram filters) initState

/-- Filter normalisation of `KNXSplitter.__init__` (lines 71–76): skip
falsy entries, force a trailing `/`. -/
def normalizeFilters : List String → List String
  | [] => []
  | ga :: rest =>
    if ga = "" then normalizeFilters rest
    else (if pyEndsWith ga "/" = true then ga else ga ++ "/") :: normalizeFilters rest

/-- Python `ga.replace('/', '_')` (a character-wise replacement). -/
def slashToUnderscore (ga : String) : String :=
  String.mk (ga.data.map (fun c => if c = '/' then '_' else c))

/-- Derivation of `self.output_filename` in `KNXSplitter.__init__`
(lines 81–86), applied to the normalised filter list. -/
def outputFilename (filterList : List String) : String :=
  let parts := filterList.map (fun ga => String.mk (pyStripChar '_' (slashToUnderscore ga).data))
  let joined := if parts = [] then "all" else String.intercalate "-" parts
  "knx_tel_" ++ joined ++ ".xml"

/-- `self.other_filename` (line 86). -/
def otherFilename : String := "knx_tel.xml"

/-! Specification-side helpers used to state the partition claims.  They
restate the routing decision of `stepTelegram` without the accumulated
collections, so that the claims can speak about "the destination of a
telegram" and "the destination of the nearest preceding data telegram". -/

/-- A telegram is routed (not skipped) iff its raw attribute is present
and non-empty. -/
def isRouted (t : Telegram) : Bool := getRaw t ≠ ""

/-- A routed telegram that is not an acknowledgement. -/
def isDataTel (t : Telegram) : Bool := isRouted t && ! isAckRaw (getRaw t)

/-- Destination the loop assigns to a non-acknowledgement telegram with
raw frame `raw`; this decision does not depend on the loop state. -/
def destOfData (filters : List String) (raw : String) : Dest :=
  let ga := extract_group_address raw
  if ga = "IGNORE" ∨ ga = "" then Dest.filtered
  else if filters.any (fun f => pyStartsWith ga f) = true then Dest.filtered
  else Dest.other

/-- Comment the loop attaches to a non-acknowledgement telegram. -/
def commentOfData (raw : String) : String :=
  let ga := extract_group_address raw
  if ga = "IGNORE" ∨ ga = "" then ignComment raw
  else gaComment ga (get_physical_address raw)

/-- One ordered list recording, for every non-skipped telegram in input
order, the telegram, its attached comment and its destination.  The first
argument is the `last_destination` value at the start of the run. -/
def routeAll (filters : List String) : Option Dest → List Telegram → List (Telegram × String × Dest)
  | _, [] => []
  | last, t :: rest =>
    let raw := getRaw t
    if raw = "" then routeAll filters last rest
    else if isAckRaw raw = true then
      (t, "", if last = some Dest.other then Dest.other else Dest.filtered) ::
        routeAll filters last rest
    else
      (t, commentOfData raw, destOfData filters raw) ::
        routeAll filters (some (destOfData filters raw)) rest

/-- Destination of the nearest preceding routed non-acknowledgement
telegram (`none` if there is no such telegram). -/
def lastDataDest (filters : List String) (ts : List Telegram) : Option Dest :=
  ts.foldl (fun acc t => if isDataTel t = true then some (destOfData filters (getRaw t)) else acc) none

/-! The renderer `insert_comments` (src/knx_log_splitter.py, lines
233–285).  It post-processes the serialised XML line by line; the model
works on the line list (the file I/O around it is glue). -/

/-- The four-space indentation the renderer re-applies. -/
def sp4 : List Char := [' ', ' ', ' ', ' ']

/-- The comment opener `'<!-- '` removed by line 260. -/
def commentOpen : List Char := "<!-- ".data

/-- The split pattern `'RawData="'` of line 245. -/
def rdPat : List Char := "RawData=\"".data

/-- Python `xs.split('"')[0]`: the part before the first double quote
(the whole string when there is none). -/
def firstQuoteField (xs : List Char) : List Char :=
  match splitFirst ['"'] xs with
  | some p => p.1
  | none => xs

/-- Line 249: `f'{parts[0]}RawData="{rawdata_part}" />'`. -/
def buildTelegramPart (p0 p1 : List Char) : List Char :=
  p0 ++ rdPat ++ firstQuoteField p1 ++ "\" />".data

/-- Python `comment.split(';')[0]` (line 261). -/
def beforeSemi (xs : List Char) : List Char :=
  match splitFirst [';'] xs with
  | some p => p.1
  | none => xs

/-- Python `comment.split(';')[1]` (line 262): the segment between the
first and the second semicolon.  When the comment holds no semicolon the
Python expression raises an uncaught `IndexError` that aborts the run;
that case is modelled as `[]` and is unreachable for the comments the
split loop produces, which always contain `';'`. -/
def afterSemi (xs : List Char) : List Char :=
  match splitFirst [';'] xs with
  | some p => beforeSemi p.2
  | none => []

/-- Lines 253–257: `spaces_needed = 165 - (len(telegram_part) + 4)`,
padding only when the computed count is positive. -/
def padTelegramPart (telegramPart : List Char) : List Char :=
  if telegramPart.length + 4 < 165
  then telegramPart ++ List.replicate (165 - (telegramPart.length + 4)) ' '
  else telegramPart

/-- Lines 251–281: rebuild one telegram line from the self-closing
`telegram_part` and the comment (if any), padding to the fixed columns. -/
def renderTelegramLine (telegramPart : List Char) (comment? : Option (List Char)) : List Char :=
  match comment? with
  | some c =>
    if c ≠ [] then
      let tp := padTelegramPart telegramPart
      let comment1 := removeAll commentOpen c
      let gaPart := pyStrip (beforeSemi comment1)
      let qaPart := pyStrip (afterSemi comment1)
      let semicolonPos := (tp.length + 4) + 5 + gaPart.length
      if semicolonPos < 183 then
        sp4 ++ tp ++ commentOpen ++ (gaPart ++ List.replicate (183 - semicolonPos) ' ') ++
          "; ".data ++ qaPart ++ ['\n']
      else
        sp4 ++ tp ++ comment1 ++ ['\n']
    else sp4 ++ telegramPart ++ ['\n']
  | none => sp4 ++ telegramPart ++ ['\n']

/-- Line 241: `'<Telegram' in line and '</Telegram>' in line`. -/
def lineIsTelegram (line : String) : Bool :=
  containsSub line.data "<Telegram".data && containsSub line.data "</Telegram>".data

/-- One iteration of the renderer loop (lines 240–283) on one line, given
`comments[comment_idx]` (`none` when `comment_idx >= len(comments)`).  A
telegram line that does not split into exactly two parts on `'RawData="'`
is emitted left-stripped (the Python code has already reassigned
`line = line.lstrip()` at that point); any other line passes through. -/
def processTelegramLine (comment? : Option String) (line : String) : String :=
  if lineIsTelegram line = true then
    let l := pyLStrip line.data
    match splitFirst rdPat l with
    | some p =>
      match splitFirst rdPat p.2 with
      | none => String.mk (renderTelegramLine (buildTelegramPart p.1 p.2) (comment?.map String.data))
      | some _ => String.mk l
    | none => String.mk l
  else line

/-- Whether processing this line advances `comment_idx` (the increment at
line 282 sits inside `if len(parts) == 2`). -/
def consumesComment (line : String) : Bool :=
  lineIsTelegram line &&
    (match splitFirst rdPat (pyLStrip line.data) with
     | some p => ! (splitFirst rdPat p.2).isSome
     | none => false)

/-- The renderer loop with explicit `comment_idx`. -/
def insertCommentsFrom (comments : List String) : Nat → List String → List String
  | _, [] => []
  | idx, line :: rest =>
    processTelegramLine (comments.get? idx) line ::
      insertCommentsFrom comments (if consumesComment line = true then idx + 1 else idx) rest

/-- `insert_comments` (lines 233–285) as a transformation of the list of
lines of the serialised document. -/
def insert_comments (comments lines : List String) : List String :=
  insertCommentsFrom comments 0 lines

/-- The group-address decode contract exactly as the specification words
it, instantiated at one input: below 28 hex characters the sentinel, and
otherwise the triple read from the two bytes at offset 28 with
`main = (byte1 >> 4) & 0xF`, `middle = byte1 & 0xF`, `sub = byte2`. -/
def groupDecodeClaimAt (raw : String) : Prop :=
  if raw.length < 28 then extract_group_address raw = "IGNORE"
  else
    ∃ byte1 byte2,
      sliceHex raw 28 2 = some byte1 ∧ sliceHex raw 30 2 = some byte2 ∧
      extract_group_address raw = renderGA ((byte1 >>> 4) &&& 0xF) (byte1 &&& 0xF) byte2

/-- The two-sentinel reading of the decoder exactly as the specification
words it: one sentinel for acknowledgement frames, a different one for
too-short non-acknowledgement frames. -/
def sentinelClaimStated : Prop :=
  ∃ notApplicable undecodable : String,
    notApplicable ≠ undecodable ∧
    (∀ raw, isAckRaw raw = true → extract_group_address raw = notApplicable) ∧
    (∀ raw, isAckRaw raw = false → raw.length < 28 →
      extract_group_address raw = undecodable)

/-!
## Evaluation checks

Concrete behaviour of the embedded definitions,
matching the concrete scenarios of the specification.  The frame
`"0000000000000000000000BCAABB2305"` has the 22-character header, the
`BC` control byte, source bytes `AA BB` at offset 24 and destination
bytes `23 05` at offset 28.
-/

example : extract_group_address "0000000000000000000000BCAABB2305" = "2/3/5" := by decide
example : extract_group_address "00000000000000000000" = "IGNORE" := by decide
example : extract_group_address "0011CC" = "IGNORE" := by decide
example : extract_group_address "0000000000000000000000BCAABB23G5" = "" := by decide
example : get_physical_address "0000000000000000000000BCAABB2305" = "10.10.187" := by decide
example : get_physical_address "00000000000000000000" = "" := by decide
example : outputFilename (normalizeFilters ["0/7/", "1/2/"]) = "knx_tel_0_7-1_2.xml" := by decide
example : outputFilename (normalizeFilters []) = "knx_tel_all.xml" := by decide
example : normalizeFilters ["1/2"] = ["1/2/"] := by decide

/-!
## Supporting lemmas
-/

/-- The value of a hexadecimal digit is at most 15. -/
theorem hexDigitVal_le (c : Char) (d : Nat) (h : hexDigitVal c = some d) : d ≤ 15 := by
  unfold hexDigitVal at h
  split at h
  · next hc => simp only [Option.some.injEq] at h; omega
  · split at h
    · next hc => simp only [Option.some.injEq] at h; omega
    · split at h
      · next hc => simp only [Option.some.injEq] at h; omega
      · exact absurd h (by simp)

/-- A successful `hexValAux` run is bounded by the accumulator and the
number of remaining digits. -/
theorem hexValAux_lt : ∀ (cs : List Char) (acc v : Nat),
    hexValAux cs acc = some v → v < (acc + 1) * 16 ^ cs.length := by
  intro cs
  induction cs with
  | nil =>
    intro acc v h
    simp only [hexValAux, Option.some.injEq] at h
    simp [← h]
  | cons c cs ih =>
    intro acc v h
    simp only [hexValAux] at h
    cases hd : hexDigitVal c with
    | none => rw [hd] at h; exact absurd h (by simp)
    | some d =>
      rw [hd] at h
      have hd15 := hexDigitVal_le c d hd
      have hih := ih (acc * 16 + d) v h
      have step : (acc * 16 + d + 1) * 16 ^ cs.length ≤ (acc + 1) * 16 ^ (c :: cs).length := by
        simp only [List.length_cons, pow_succ]
        calc (acc * 16 + d + 1) * 16 ^ cs.length
            ≤ ((acc + 1) * 16) * 16 ^ cs.length :=
              Nat.mul_le_mul_right _ (by omega)
          _ = (acc + 1) * (16 ^ cs.length * 16) := by ring
      exact lt_of_lt_of_le hih step

/-- A successfully parsed hex string of `n` digits is below `16 ^ n`. -/
theorem hexVal_lt (cs : List Char) (v : Nat) (h : hexVal cs = some v) :
    v < 16 ^ cs.length := by
  unfold hexVal at h
  split at h
  · exact absurd h (by simp)
  · simpa using hexValAux_lt cs 0 v h

/-- A two-character hex slice parses below 256. -/
theorem sliceHex_lt_256 (raw : String) (start b : Nat)
    (h : sliceHex raw start 2 = some b) : b < 256 := by
  have h1 := hexVal_lt _ _ h
  have h2 : ((raw.data.drop start).take 2).length ≤ 2 := by
    simp [Nat.min_le_left]
  calc b < 16 ^ ((raw.data.drop start).take 2).length := h1
    _ ≤ 16 ^ 2 := Nat.pow_le_pow_right (by norm_num) h2
    _ = 256 := by norm_num

set_option maxRecDepth 8000 in
/-- For a byte, masking the high nibble then shifting equals shifting
then masking (the code computes the first form, the specification the
second). -/
theorem and240_shift : ∀ b < 256, (b &&& 240) >>> 4 = (b >>> 4) &&& 15 := by
  decide

/-- Any frame shorter than 32 hex characters decodes to `"IGNORE"` (the
acknowledgement guard and both length guards all return it). -/
theorem extract_short_eq_ignore (raw : String) (h : raw.length < 32) :
    extract_group_address raw = "IGNORE" := by
  unfold extract_group_address
  by_cases hack : pyEndsWith raw "CC" = true ∧ raw.length ≤ 24
  · rw [if_pos hack]
  · rw [if_neg hack]
    by_cases h28 : raw.length < 28
    · rw [if_pos h28]
    · rw [if_neg h28, if_pos (by omega)]

/-- Acknowledgement frames decode to `"IGNORE"`. -/
theorem extract_ack_eq_ignore (raw : String) (h : isAckRaw raw = true) :
    extract_group_address raw = "IGNORE" := by
  have h' : pyEndsWith raw "CC" = true ∧ raw.length ≤ 24 := by
    simpa [isAckRaw] using h
  unfold extract_group_address
  rw [if_pos h']

/-- A non-acknowledgement raw frame never satisfies the first guard of
`extract_group_address`. -/
theorem not_ack_guard (raw : String) (hack : isAckRaw raw = false) :
    ¬ (pyEndsWith raw "CC" = true ∧ raw.length ≤ 24) := by
  intro hc
  simp [isAckRaw, hc.1, hc.2] at hack

/-- Classification of every `extract_group_address` result: one of the
two sentinels, or a rendered in-range triple. -/
theorem extract_group_address_cases (raw : String) :
    extract_group_address raw = "IGNORE" ∨ extract_group_address raw = "" ∨
      ∃ h m u, h ≤ 15 ∧ m ≤ 15 ∧ u ≤ 255 ∧
        extract_group_address raw = renderGA h m u := by
  unfold extract_group_address
  split
  · exact Or.inl rfl
  split
  · exact Or.inl rfl
  split
  · exact Or.inl rfl
  rcases h1 : sliceHex raw 28 2 with _ | b1 <;>
    rcases h2 : sliceHex raw 30 2 with _ | b2 <;> simp only [h1, h2]
  · exact Or.inr (Or.inl trivial)
  · exact Or.inr (Or.inl trivial)
  · exact Or.inr (Or.inl trivial)
  · refine Or.inr (Or.inr ⟨(b1 &&& 240) >>> 4, b1 &&& 15, b2, ?_, Nat.and_le_right,
      Nat.lt_succ_iff.mp (sliceHex_lt_256 raw 30 b2 h2), rfl⟩)
    rw [Nat.shiftRight_eq_div_pow]
    calc (b1 &&& 240) / 2 ^ 4 ≤ 240 / 2 ^ 4 := Nat.div_le_div_right Nat.and_le_right
      _ = 15 := by norm_num

/-- Classification of every `get_physical_address` result: the empty
sentinel, or a rendered in-range triple. -/
theorem get_physical_address_cases (raw : String) :
    get_physical_address raw = "" ∨
      ∃ h m u, h ≤ 15 ∧ m ≤ 15 ∧ u ≤ 255 ∧
        get_physical_address raw = renderPA h m u := by
  unfold get_physical_address
  split
  · exact Or.inl rfl
  split
  · exact Or.inl rfl
  rcases h1 : sliceHex raw 24 2 with _ | b1 <;>
    rcases h2 : sliceHex raw 26 2 with _ | b2 <;> simp only [h1, h2]
  · exact Or.inl trivial
  · exact Or.inl trivial
  · exact Or.inl trivial
  · refine Or.inr ⟨(b1 &&& 240) >>> 4, b1 &&& 15, b2, ?_, Nat.and_le_right,
      Nat.lt_succ_iff.mp (sliceHex_lt_256 raw 26 b2 h2), rfl⟩
    rw [Nat.shiftRight_eq_div_pow]
    calc (b1 &&& 240) / 2 ^ 4 ≤ 240 / 2 ^ 4 := Nat.div_le_div_right Nat.and_le_right
      _ = 15 := by norm_num

/-!
## Claims about the decoders (C3, C4, C5)
-/

/-- C3, counterexample: the claim's case split is false at the 28-zero
frame.  It is a hex string, not an acknowledgement, and its length is
not below 28, so the claim asserts the decoder reads the two bytes at
offset 28 and renders a triple — but the second byte does not exist
(`sliceHex` at offset 30 fails) and the code returns `"IGNORE"` through
its additional `len(rawdata) < ziel_start + 4` guard. -/
theorem group_decode_claim_counterexample :
    isAckRaw "0000000000000000000000000000" = false ∧
    ¬ groupDecodeClaimAt "0000000000000000000000000000" := by
  refine ⟨by decide, ?_⟩
  intro h
  unfold groupDecodeClaimAt at h
  rw [if_neg (by decide)] at h
  obtain ⟨b1, b2, h1, h2, h3⟩ := h
  have hn : sliceHex "0000000000000000000000000000" 30 2 = none := by decide
  rw [hn] at h2
  exact Option.noConfusion h2

/-- C3 (amended): for a non-acknowledgement frame the decoder returns
the `"IGNORE"` sentinel whenever the length is below 32 hex characters
(not 28: 32 is what is needed to contain both destination bytes at
offset 28); for length at least 32 it reads the two bytes at offset 28
and renders `main = (byte1 >> 4) & 0xF`, `middle = byte1 & 0xF`,
`sub = byte2` as `"main/middle/sub"`; in particular destination bytes
`0x23 0x05` at offset 28 decode to `"2/3/5"`. -/
theorem group_decode_amended (raw : String) (hack : isAckRaw raw = false) :
    (raw.length < 32 → extract_group_address raw = "IGNORE") ∧
    (32 ≤ raw.length →
      ∀ byte1 byte2, sliceHex raw 28 2 = some byte1 → sliceHex raw 30 2 = some byte2 →
        extract_group_address raw =
          renderGA ((byte1 >>> 4) &&& 0xF) (byte1 &&& 0xF) byte2) ∧
    extract_group_address "0000000000000000000000BCAABB2305" = "2/3/5" := by
  refine ⟨extract_short_eq_ignore raw, ?_, by decide⟩
  intro hlen b1 b2 h1 h2
  unfold extract_group_address
  rw [if_neg (not_ack_guard raw hack), if_neg (by omega), if_neg (by omega)]
  simp only [h1, h2]
  rw [← and240_shift b1 (sliceHex_lt_256 raw 28 b1 h1)]

/-- C3 (amended), witness: the 30-zero non-acknowledgement frame decodes
to `"IGNORE"`, and the scenario-1 frame with destination bytes `23 05`
decodes to the rendered triple of the claimed formulas. -/
theorem group_decode_amended_witness :
    extract_group_address "000000000000000000000000000000" = "IGNORE" ∧
    extract_group_address "0000000000000000000000BCAABB2305" =
      renderGA ((0x23 >>> 4) &&& 0xF) (0x23 &&& 0xF) 0x05 := by
  refine ⟨(group_decode_amended "000000000000000000000000000000" (by decide)).1 (by decide), ?_⟩
  exact ((group_decode_amended "0000000000000000000000BCAABB2305" (by decide)).2.1
    (by decide)) 0x23 0x05 (by decide) (by decide)

/-- C4: both decoders are total and deterministic — every input string
yields a defined result (a sentinel, the empty string, or a rendered
in-range address triple), and equal inputs yield equal outputs.  In the
embedding the decoders are Lean functions, so they cannot raise; this
theorem states the claim's classification of their results. -/
theorem decoders_total_deterministic (raw : String) :
    (extract_group_address raw = "IGNORE" ∨ extract_group_address raw = "" ∨
      ∃ h m u, h ≤ 15 ∧ m ≤ 15 ∧ u ≤ 255 ∧
        extract_group_address raw = renderGA h m u) ∧
    (get_physical_address raw = "" ∨
      ∃ h m u, h ≤ 15 ∧ m ≤ 15 ∧ u ≤ 255 ∧
        get_physical_address raw = renderPA h m u) ∧
    (∀ raw2 : String, raw = raw2 →
      extract_group_address raw = extract_group_address raw2 ∧
      get_physical_address raw = get_physical_address raw2) := by
  refine ⟨extract_group_address_cases raw, get_physical_address_cases raw, ?_⟩
  intro raw2 heq
  rw [heq]
  exact ⟨rfl, rfl⟩

/-- C4, witness: the theorem applied at the (non-hex, too-short) input
`"ZZ"`, discharging the determinism hypothesis at `raw2 = "ZZ"`; the
decoder results there are the sentinels. -/
theorem decoders_total_deterministic_witness :
    (extract_group_address "ZZ" = extract_group_address "ZZ" ∧
      get_physical_address "ZZ" = get_physical_address "ZZ") ∧
    extract_group_address "ZZ" = "IGNORE" ∧ get_physical_address "ZZ" = "" :=
  ⟨(decoders_total_deterministic "ZZ").2.2 "ZZ" rfl, by decide, by decide⟩

/-- C5, counterexample: the decoder does not give acknowledgement frames
and too-short frames two distinguishable sentinels — the acknowledgement
`"CC"` and the too-short non-acknowledgement `"AB"` both decode to
`"IGNORE"`, so no pair of distinct sentinel values can satisfy the claim
as stated. -/
theorem sentinel_claim_counterexample : ¬ sentinelClaimStated := by
  intro h
  obtain ⟨na, ud, hne, hackAll, hshortAll⟩ := h
  have h1 := hackAll "CC" (by decide)
  have h2 := hshortAll "AB" (by decide) (by decide)
  rw [show extract_group_address "CC" = "IGNORE" from by decide] at h1
  rw [show extract_group_address "AB" = "IGNORE" from by decide] at h2
  exact hne (h1.symm.trans h2)

/-- C5 (amended): the decoder uses two distinct sentinel strings, but
distributed differently from the claim: `"IGNORE"` is returned both for
every acknowledgement frame and for every frame shorter than 32 hex
characters, while `""` is returned when a destination byte fails to
parse (malformed hex); `"IGNORE"` and `""` are distinguishable. -/
theorem sentinel_amended :
    (∀ raw, isAckRaw raw = true → extract_group_address raw = "IGNORE") ∧
    (∀ raw, raw.length < 32 → extract_group_address raw = "IGNORE") ∧
    (∀ raw, isAckRaw raw = false → 32 ≤ raw.length →
      sliceHex raw 28 2 = none ∨ sliceHex raw 30 2 = none →
      extract_group_address raw = "") ∧
    ("IGNORE" : String) ≠ "" := by
  refine ⟨extract_ack_eq_ignore, extract_short_eq_ignore, ?_, by decide⟩
  intro raw hack hlen hnone
  unfold extract_group_address
  rw [if_neg (not_ack_guard raw hack), if_neg (by omega), if_neg (by omega)]
  rcases h1 : sliceHex raw 28 2 with _ | b1 <;>
    rcases h2 : sliceHex raw 30 2 with _ | b2 <;>
      simp only [h1, h2]
  rcases hnone with h | h
  · rw [h1] at h; exact Option.noConfusion h
  · rw [h2] at h; exact Option.noConfusion h

/-- C5 (amended), witness: the amended theorem applied at the
acknowledgement `"CC"`, the short frame `"0"`, and a 32-character frame
whose second destination byte contains the non-hex character `G`. -/
theorem sentinel_amended_witness :
    extract_group_address "CC" = "IGNORE" ∧
    extract_group_address "0" = "IGNORE" ∧
    extract_group_address "000000000000000000000000000000G0" = "" :=
  ⟨sentinel_amended.1 "CC" (by decide),
   sentinel_amended.2.1 "0" (by decide),
   sentinel_amended.2.2.1 "000000000000000000000000000000G0" (by decide) (by decide)
     (Or.inr (by decide))⟩

/-!
## Lemmas about the partition loop
-/

/-- A telegram with empty (or missing) raw attribute leaves the loop
state untouched. -/
theorem step_skip (filters : List String) (s : SplitState) (t : Telegram)
    (h : getRaw t = "") : stepTelegram filters s t = s := by
  simp [stepTelegram, h]

/-- An acknowledgement telegram is appended to `other` exactly when the
previous destination was `other`. -/
theorem step_ack_other (filters : List String) (s : SplitState) (t : Telegram)
    (h1 : getRaw t ≠ "") (h2 : isAckRaw (getRaw t) = true)
    (h3 : s.lastDest = some Dest.other) :
    stepTelegram filters s t = { s with other := s.other ++ [(t, "")] } := by
  simp [stepTelegram, h1, h2, h3]

/-- An acknowledgement telegram falls back to `filtered` when the
previous destination was not `other`. -/
theorem step_ack_filtered (filters : List String) (s : SplitState) (t : Telegram)
    (h1 : getRaw t ≠ "") (h2 : isAckRaw (getRaw t) = true)
    (h3 : s.lastDest ≠ some Dest.other) :
    stepTelegram filters s t = { s with filtered := s.filtered ++ [(t, "")] } := by
  simp [stepTelegram, h1, h2, h3]

/-- A routed non-acknowledgement telegram is appended, with
`commentOfData`, to the stream chosen by `destOfData`, and
`last_destination` is set to that stream. -/
theorem step_data (filters : List String) (s : SplitState) (t : Telegram)
    (h1 : getRaw t ≠ "") (h2 : isAckRaw (getRaw t) = false) :
    stepTelegram filters s t =
      { s with
        lastEffectiveGA :=
          if extract_group_address (getRaw t) = "IGNORE" ∨
             extract_group_address (getRaw t) = ""
          then s.lastEffectiveGA else some (extract_group_address (getRaw t)),
        lastDest := some (destOfData filters (getRaw t)),
        filtered :=
          if destOfData filters (getRaw t) = Dest.filtered
          then s.filtered ++ [(t, commentOfData (getRaw t))] else s.filtered,
        other :=
          if destOfData filters (getRaw t) = Dest.other
          then s.other ++ [(t, commentOfData (getRaw t))] else s.other } := by
  by_cases hga : extract_group_address (getRaw t) = "IGNORE" ∨
      extract_group_address (getRaw t) = ""
  · simp [stepTelegram, destOfData, commentOfData, h1, h2, hga]
  · by_cases hmatch : filters.any (fun f => pyStartsWith (extract_group_address (getRaw t)) f) = true
    · simp [stepTelegram, destOfData, commentOfData, h1, h2, hga, hmatch]
    · simp [stepTelegram, destOfData, commentOfData, h1, h2, hga, hmatch]

/-- Main invariant of the loop: starting from any state, the final
`filtered` and `other` collections are the initial ones extended by the
two destination-projections of `routeAll`, and the telegrams of
`routeAll` are exactly the routed (non-empty-raw) input telegrams in
input order. -/
theorem foldl_split_spec (filters : List String) :
    ∀ (ts : List Telegram) (s : SplitState),
      (List.foldl (stepTelegram filters) s ts).filtered =
          s.filtered ++ ((routeAll filters s.lastDest ts).filter
            (fun x => decide (x.2.2 = Dest.filtered))).map (fun x => (x.1, x.2.1)) ∧
      (List.foldl (stepTelegram filters) s ts).other =
          s.other ++ ((routeAll filters s.lastDest ts).filter
            (fun x => decide (x.2.2 = Dest.other))).map (fun x => (x.1, x.2.1)) ∧
      (routeAll filters s.lastDest ts).map (fun x => x.1) =
          ts.filter (fun t => isRouted t) := by
  intro ts
  induction ts with
  | nil => intro s; simp [routeAll]
  | cons t rest ih =>
    intro s
    by_cases h0 : getRaw t = ""
    · have hstep := step_skip filters s t h0
      have hroute : routeAll filters s.lastDest (t :: rest) =
          routeAll filters s.lastDest rest := by
        simp [routeAll, h0]
      have hrt : isRouted t = false := by simp [isRouted, h0]
      simpa [List.foldl_cons, hstep, hroute, hrt] using ih s
    · by_cases h2 : isAckRaw (getRaw t) = true
      · -- acknowledgement: routed to the last destination, state otherwise kept
        by_cases h3 : s.lastDest = some Dest.other
        · have hstep := step_ack_other filters s t h0 h2 h3
          have hroute : routeAll filters s.lastDest (t :: rest) =
              (t, "", Dest.other) :: routeAll filters s.lastDest rest := by
            simp [routeAll, h0, h2, h3]
          have hrt : isRouted t = true := by simp [isRouted, h0]
          obtain ⟨ihf, iho, ihm⟩ := ih { s with other := s.other ++ [(t, "")] }
          refine ⟨?_, ?_, ?_⟩
          · simpa [List.foldl_cons, hstep, hroute] using ihf
          · simp only [List.foldl_cons, hstep, hroute]
            simp only [List.filter_cons] at iho ⊢
            simp only [hstep] at *
            simpa [List.append_assoc] using iho
          · simp [hroute, hrt, ihm]
        · have hstep := step_ack_filtered filters s t h0 h2 h3
          have hroute : routeAll filters s.lastDest (t :: rest) =
              (t, "", Dest.filtered) :: routeAll filters s.lastDest rest := by
            simp [routeAll, h0, h2, h3]
          have hrt : isRouted t = true := by simp [isRouted, h0]
          obtain ⟨ihf, iho, ihm⟩ := ih { s with filtered := s.filtered ++ [(t, "")] }
          refine ⟨?_, ?_, ?_⟩
          · simp only [List.foldl_cons, hstep, hroute]
            simp only [List.filter_cons] at ihf ⊢
            simpa [List.append_assoc] using ihf
          · simpa [List.foldl_cons, hstep, hroute] using iho
          · simp [hroute, hrt, ihm]
      · -- data telegram
        have h2' : isAckRaw (getRaw t) = false := by
          cases hb : isAckRaw (getRaw t) with
          | false => rfl
          | true => exact absurd hb h2
        have hstep := step_data filters s t h0 h2'
        have hroute : routeAll filters s.lastDest (t :: rest) =
            (t, commentOfData (getRaw t), destOfData filters (getRaw t)) ::
              routeAll filters (some (destOfData filters (getRaw t))) rest := by
          simp [routeAll, h0, h2']
        have hrt : isRouted t = true := by simp [isRouted, h0]
        cases hd : destOfData filters (getRaw t) with
        | filtered =>
          obtain ⟨ihf, iho, ihm⟩ := ih
            { s with
              lastEffectiveGA :=
                if extract_group_address (getRaw t) = "IGNORE" ∨
                   extract_group_address (getRaw t) = ""
                then s.lastEffectiveGA else some (extract_group_address (getRaw t)),
              lastDest := some Dest.filtered,
              filtered := s.filtered ++ [(t, commentOfData (getRaw t))] }
          refine ⟨?_, ?_, ?_⟩
          · simp only [List.foldl_cons, hstep, hd, hroute]
            simp only [List.filter_cons] at ihf ⊢
            simpa [List.append_assoc, hd] using ihf
          · simp only [List.foldl_cons, hstep, hd, hroute]
            simpa [hd] using iho
          · simpa [hroute, hrt, hd] using ihm
        | other =>
          obtain ⟨ihf, iho, ihm⟩ := ih
            { s with
              lastEffectiveGA :=
                if extract_group_address (getRaw t) = "IGNORE" ∨
                   extract_group_address (getRaw t) = ""
                then s.lastEffectiveGA else some (extract_group_address (getRaw t)),
              lastDest := some Dest.other,
              other := s.other ++ [(t, commentOfData (getRaw t))] }
          refine ⟨?_, ?_, ?_⟩
          · simp only [List.foldl_cons, hstep, hd, hroute]
            simpa [hd] using ihf
          · simp only [List.foldl_cons, hstep, hd, hroute]
            simp only [List.filter_cons] at iho ⊢
            simpa [List.append_assoc, hd] using iho
          · simpa [hroute, hrt, hd] using ihm

/-- The loop's `last_destination` equals the destination of the nearest
preceding routed non-acknowledgement telegram. -/
theorem foldl_lastDest (filters : List String) :
    ∀ (ts : List Telegram) (s : SplitState),
      (List.foldl (stepTelegram filters) s ts).lastDest =
        ts.foldl (fun acc t =>
          if isDataTel t = true then some (destOfData filters (getRaw t)) else acc)
          s.lastDest := by
  intro ts
  induction ts with
  | nil => intro s; simp
  | cons t rest ih =>
    intro s
    by_cases h0 : getRaw t = ""
    · have hdt : isDataTel t = false := by simp [isDataTel, isRouted, h0]
      simp [List.foldl_cons, step_skip filters s t h0, hdt, ih]
    · by_cases h2 : isAckRaw (getRaw t) = true
      · have hdt : isDataTel t = false := by simp [isDataTel, isRouted, h0, h2]
        by_cases h3 : s.lastDest = some Dest.other
        · simp [List.foldl_cons, step_ack_other filters s t h0 h2 h3, hdt, ih]
        · simp [List.foldl_cons, step_ack_filtered filters s t h0 h2 h3, hdt, ih]
      · have h2' : isAckRaw (getRaw t) = false := by
          cases hb : isAckRaw (getRaw t) with
          | false => rfl
          | true => exact absurd hb h2
        have hdt : isDataTel t = true := by simp [isDataTel, isRouted, h0, h2']
        simp [List.foldl_cons, step_data filters s t h0 h2', hdt, ih]

/-- The `last_destination` after a whole run is `lastDataDest`. -/
theorem splitTelegrams_lastDest (filters : List String) (ts : List Telegram) :
    (splitTelegrams filters ts).lastDest = lastDataDest filters ts := by
  simpa [splitTelegrams, initState, lastDataDest] using
    foldl_lastDest filters ts initState

/-- Appending one telegram runs one more loop iteration. -/
theorem splitTelegrams_append_one (filters : List String) (ts : List Telegram)
    (t : Telegram) :
    splitTelegrams filters (ts ++ [t]) =
      stepTelegram filters (splitTelegrams filters ts) t := by
  simp [splitTelegrams, List.foldl_append]

/-!
## Claims about the partition (C1, C2, C6, C7)
-/

/-- C1: the partition is a stable split of the input.  `routeAll` is a
single ordered list assigning one destination to every non-skipped
telegram; the loop's `filtered` and `other` collections are exactly its
two complementary destination projections (so each telegram with a
non-empty raw frame is appended to exactly one collection, none is
duplicated or dropped, and interleaving the two collections by original
position — i.e. `routeAll` itself — reconstructs the input sequence),
and the telegrams of `routeAll`, in order, are exactly the input
telegrams with a non-empty raw attribute; telegrams with a missing or
empty raw attribute appear in neither collection. -/
theorem split_is_stable_partition (filters : List String) (ts : List Telegram) :
    (splitTelegrams filters ts).filtered =
        ((routeAll filters none ts).filter
          (fun x => decide (x.2.2 = Dest.filtered))).map (fun x => (x.1, x.2.1)) ∧
    (splitTelegrams filters ts).other =
        ((routeAll filters none ts).filter
          (fun x => decide (x.2.2 = Dest.other))).map (fun x => (x.1, x.2.1)) ∧
    (routeAll filters none ts).map (fun x => x.1) =
        ts.filter (fun t => isRouted t) := by
  have h := foldl_split_spec filters ts initState
  simpa [splitTelegrams, initState] using h

/-- C2: an acknowledgement telegram (raw ends in `"CC"`, length at most
24) is appended, with an empty comment, to the stream that received the
nearest preceding routed non-acknowledgement telegram
(`lastDataDest`); when there is no such telegram (`lastDataDest` is not
`other`, in particular `none`) it defaults to the filtered stream; and
routing it never changes `last_destination`. -/
theorem ack_routing (filters : List String) (ts : List Telegram) (t : Telegram)
    (h1 : getRaw t ≠ "") (h2 : isAckRaw (getRaw t) = true) :
    (lastDataDest filters ts = some Dest.other →
      (splitTelegrams filters (ts ++ [t])).other =
        (splitTelegrams filters ts).other ++ [(t, "")] ∧
      (splitTelegrams filters (ts ++ [t])).filtered =
        (splitTelegrams filters ts).filtered) ∧
    (lastDataDest filters ts ≠ some Dest.other →
      (splitTelegrams filters (ts ++ [t])).filtered =
        (splitTelegrams filters ts).filtered ++ [(t, "")] ∧
      (splitTelegrams filters (ts ++ [t])).other =
        (splitTelegrams filters ts).other) ∧
    (splitTelegrams filters (ts ++ [t])).lastDest =
      (splitTelegrams filters ts).lastDest := by
  rw [splitTelegrams_append_one]
  have hld := splitTelegrams_lastDest filters ts
  refine ⟨?_, ?_, ?_⟩
  · intro hother
    rw [step_ack_other filters _ t h1 h2 (hld.trans hother)]
    exact ⟨rfl, rfl⟩
  · intro hnother
    rw [step_ack_filtered filters _ t h1 h2 (fun hc => hnother (hld.symm.trans hc))]
    exact ⟨rfl, rfl⟩
  · by_cases h3 : (splitTelegrams filters ts).lastDest = some Dest.other
    · rw [step_ack_other filters _ t h1 h2 h3]
    · rw [step_ack_filtered filters _ t h1 h2 h3]

/-- C2, witness: after a data telegram routed to the `other` stream, the
acknowledgement `"CC"` is appended to `other` with an empty comment. -/
theorem ack_routing_witness :
    lastDataDest ["0/7/"] [⟨some "0000000000000000000000BCAABB1203", 0⟩] =
      some Dest.other ∧
    (splitTelegrams ["0/7/"]
        [⟨some "0000000000000000000000BCAABB1203", 0⟩, ⟨some "CC", 1⟩]).other =
      (splitTelegrams ["0/7/"] [⟨some "0000000000000000000000BCAABB1203", 0⟩]).other ++
        [(⟨some "CC", 1⟩, "")] := by
  have h := ack_routing ["0/7/"] [⟨some "0000000000000000000000BCAABB1203", 0⟩]
    ⟨some "CC", 1⟩ (by decide) (by decide)
  exact ⟨by decide, (h.1 (by decide)).1⟩

/-- C6: a non-acknowledgement telegram whose group address decodes to a
sentinel (`"IGNORE"` or `""`) is routed to the filtered stream — never
dropped — with the comment
`"<!-- GA: IGNORE (unbestimmt) ; QA: {physical} -->"` built around the
independently decoded physical address, and `last_destination` becomes
`filtered`. -/
theorem undecodable_routing (filters : List String) (ts : List Telegram)
    (t : Telegram) (h1 : getRaw t ≠ "") (h2 : isAckRaw (getRaw t) = false)
    (h3 : extract_group_address (getRaw t) = "IGNORE" ∨
          extract_group_address (getRaw t) = "") :
    (splitTelegrams filters (ts ++ [t])).filtered =
      (splitTelegrams filters ts).filtered ++
        [(t, "<!-- GA: IGNORE (unbestimmt) ; QA: " ++
              get_physical_address (getRaw t) ++ " -->")] ∧
    (splitTelegrams filters (ts ++ [t])).other =
      (splitTelegrams filters ts).other ∧
    (splitTelegrams filters (ts ++ [t])).lastDest = some Dest.filtered := by
  rw [splitTelegrams_append_one, step_data filters _ t h1 h2]
  have hdest : destOfData filters (getRaw t) = Dest.filtered := by
    simp [destOfData, h3]
  have hcomment : commentOfData (getRaw t) =
      "<!-- GA: IGNORE (unbestimmt) ; QA: " ++
        get_physical_address (getRaw t) ++ " -->" := by
    simp [commentOfData, h3, ignComment]
  simp [hdest, hcomment]

/-- C6, witness: a length-20 raw frame (too short for any address)
lands in the filtered stream with the annotation text
`"GA: IGNORE (unbestimmt) ; QA: "` and an empty physical address. -/
theorem undecodable_routing_witness :
    (splitTelegrams [] [⟨some "00000000000000000000", 0⟩]).filtered =
      [(⟨some "00000000000000000000", 0⟩,
        "<!-- GA: IGNORE (unbestimmt) ; QA:  -->")] ∧
    (splitTelegrams [] [⟨some "00000000000000000000", 0⟩]).other = [] ∧
    get_physical_address "00000000000000000000" = "" := by
  have h := undecodable_routing [] [] ⟨some "00000000000000000000", 0⟩
    (by decide) (by decide) (Or.inl (by decide))
  refine ⟨?_, ?_, by decide⟩
  · have := h.1
    simpa [splitTelegrams, initState] using this
  · have := h.2.1
    simpa [splitTelegrams, initState] using this

/-- C7: for a decoded data frame, the telegram goes to the filtered
stream exactly when some normalised filter entry (each of which ends in
`"/"`) is a string prefix of the rendered group address, and to the
other stream otherwise, updating `last_destination` accordingly; in
particular `"1/2/"` is a prefix of `"1/2/5"` but not of `"1/20/5"`. -/
theorem filter_matching (gas : List String) (ts : List Telegram) (t : Telegram)
    (h1 : getRaw t ≠ "") (h2 : isAckRaw (getRaw t) = false)
    (h3 : extract_group_address (getRaw t) ≠ "IGNORE")
    (h4 : extract_group_address (getRaw t) ≠ "") :
    ((∃ f ∈ normalizeFilters gas,
        pyStartsWith (extract_group_address (getRaw t)) f = true) →
      (splitTelegrams (normalizeFilters gas) (ts ++ [t])).filtered =
        (splitTelegrams (normalizeFilters gas) ts).filtered ++
          [(t, gaComment (extract_group_address (getRaw t))
                (get_physical_address (getRaw t)))] ∧
      (splitTelegrams (normalizeFilters gas) (ts ++ [t])).other =
        (splitTelegrams (normalizeFilters gas) ts).other ∧
      (splitTelegrams (normalizeFilters gas) (ts ++ [t])).lastDest =
        some Dest.filtered) ∧
    ((¬ ∃ f ∈ normalizeFilters gas,
        pyStartsWith (extract_group_address (getRaw t)) f = true) →
      (splitTelegrams (normalizeFilters gas) (ts ++ [t])).other =
        (splitTelegrams (normalizeFilters gas) ts).other ++
          [(t, gaComment (extract_group_address (getRaw t))
                (get_physical_address (getRaw t)))] ∧
      (splitTelegrams (normalizeFilters gas) (ts ++ [t])).filtered =
        (splitTelegrams (normalizeFilters gas) ts).filtered ∧
      (splitTelegrams (normalizeFilters gas) (ts ++ [t])).lastDest =
        some Dest.other) ∧
    (∀ f ∈ normalizeFilters gas, pyEndsWith f "/" = true) ∧
    pyStartsWith "1/2/5" "1/2/" = true ∧
    pyStartsWith "1/20/5" "1/2/" = false := by
  have hga : ¬ (extract_group_address (getRaw t) = "IGNORE" ∨
      extract_group_address (getRaw t) = "") := by
    intro hc; rcases hc with hc | hc
    · exact h3 hc
    · exact h4 hc
  have hcomment : commentOfData (getRaw t) =
      gaComment (extract_group_address (getRaw t)) (get_physical_address (getRaw t)) := by
    simp [commentOfData, hga]
  refine ⟨?_, ?_, ?_, by decide, by decide⟩
  · intro hmatch
    have hany : (normalizeFilters gas).any
        (fun f => pyStartsWith (extract_group_address (getRaw t)) f) = true := by
      rw [List.any_eq_true]
      obtain ⟨f, hf, hpf⟩ := hmatch
      exact ⟨f, hf, hpf⟩
    have hdest : destOfData (normalizeFilters gas) (getRaw t) = Dest.filtered := by
      simp [destOfData, hga, hany]
    rw [splitTelegrams_append_one, step_data _ _ t h1 h2]
    simp [hdest, hcomment]
  · intro hmatch
    have hany : (normalizeFilters gas).any
        (fun f => pyStartsWith (extract_group_address (getRaw t)) f) = false := by
      rw [← Bool.not_eq_true, List.any_eq_true]
      intro hc
      obtain ⟨f, hf, hpf⟩ := hc
      exact hmatch ⟨f, hf, hpf⟩
    have hdest : destOfData (normalizeFilters gas) (getRaw t) = Dest.other := by
      simp [destOfData, hga, hany]
    rw [splitTelegrams_append_one, step_data _ _ t h1 h2]
    simp [hdest, hcomment]
  · intro f hf
    induction gas with
    | nil => simp [normalizeFilters] at hf
    | cons ga rest ih =>
      unfold normalizeFilters at hf
      by_cases hempty : ga = ""
      · rw [if_pos hempty] at hf
        exact ih hf
      · rw [if_neg hempty] at hf
        rcases List.mem_cons.mp hf with hhead | htail
        · subst hhead
          by_cases hslash : pyEndsWith ga "/" = true
          · rw [if_pos hslash]; exact hslash
          · rw [if_neg hslash]
            show ("/".data.isSuffixOf (ga ++ "/").data) = true
            rw [String.data_append]
            show (['/'].isSuffixOf (ga.data ++ ['/'])) = true
            simp [List.isSuffixOf, List.isPrefixOf]
        · exact ih htail

/-- C7, witness: a data telegram with group address `"1/2/3"` matches the
filter list `["1/2/"]` and lands in the filtered stream with its
comment, and the two concrete prefix facts hold. -/
theorem filter_matching_witness :
    (splitTelegrams (normalizeFilters ["1/2/"])
        [⟨some "0000000000000000000000BCAABB1203", 0⟩]).filtered =
      [(⟨some "0000000000000000000000BCAABB1203", 0⟩,
        gaComment "1/2/3" "10.10.187")] ∧
    pyStartsWith "1/2/5" "1/2/" = true ∧
    pyStartsWith "1/20/5" "1/2/" = false := by
  have h := filter_matching ["1/2/"] [] ⟨some "0000000000000000000000BCAABB1203", 0⟩
    (by decide) (by decide) (by decide) (by decide)
  refine ⟨?_, h.2.2.2.1, h.2.2.2.2⟩
  have h1 := (h.1 ⟨"1/2/", by decide, by decide⟩).1
  have hga : extract_group_address "0000000000000000000000BCAABB1203" = "1/2/3" := by decide
  have hpa : get_physical_address "0000000000000000000000BCAABB1203" = "10.10.187" := by decide
  simpa [splitTelegrams, initState, getRaw, hga, hpa] using h1

/-!
## Claim about the output filename (C9)
-/

/-- C9: the filtered output filename is the deterministic function of
the normalised filter list that replaces `/` by `_` in each entry,
strips leading/trailing `_`, joins the entries with `-`, and wraps the
result in `knx_tel_….xml`, with base name `all` for an empty list;
filters `["0/7/", "1/2/"]` yield `"knx_tel_0_7-1_2.xml"`. -/
theorem output_filename_claim :
    (∀ filterList : List String,
      outputFilename filterList =
        "knx_tel_" ++
          (if filterList = [] then "all"
           else String.intercalate "-"
             (filterList.map
               (fun ga => String.mk (pyStripChar '_' (slashToUnderscore ga).data)))) ++
          ".xml") ∧
    outputFilename (normalizeFilters ["0/7/", "1/2/"]) = "knx_tel_0_7-1_2.xml" ∧
    outputFilename (normalizeFilters []) = "knx_tel_all.xml" := by
  refine ⟨?_, by decide, by decide⟩
  intro fl
  unfold outputFilename
  cases fl with
  | nil => simp
  | cons a l => simp

/-!
## Lemmas about the renderer
-/

/-- A `removeAllAux` run with a positive skip counter first discards
that many characters. -/
theorem removeAllAux_skip (pat : List Char) (n : Nat) (xs : List Char) :
    removeAllAux pat n xs = removeAllAux pat 0 (xs.drop n) := by
  induction xs generalizing n with
  | nil => cases n <;> simp [removeAllAux]
  | cons c rest ih =>
    cases n with
    | zero => simp
    | succ m => simpa [removeAllAux] using ih m

/-- When `sep` does not occur in `c :: rest`, it is not a prefix and
does not occur in `rest`. -/
theorem splitFirst_none_cons (sep : List Char) (c : Char) (rest : List Char)
    (h : splitFirst sep (c :: rest) = none) :
    ¬ sep.isPrefixOf (c :: rest) = true ∧ splitFirst sep rest = none := by
  by_cases hp : sep.isPrefixOf (c :: rest) = true
  · rw [splitFirst, if_pos hp] at h
    exact Option.noConfusion h
  · refine ⟨hp, ?_⟩
    rw [splitFirst, if_neg hp] at h
    cases hsp : splitFirst sep rest with
    | none => rfl
    | some p => rw [hsp] at h; exact Option.noConfusion h

/-- Removing a pattern that does not occur changes nothing. -/
theorem removeAll_no_occurrence (pat xs : List Char)
    (h : splitFirst pat xs = none) : removeAll pat xs = xs := by
  induction xs with
  | nil => rfl
  | cons c rest ih =>
    obtain ⟨h1, h2⟩ := splitFirst_none_cons pat c rest h
    have hb : pat.isPrefixOf (c :: rest) = false := by
      cases hx : pat.isPrefixOf (c :: rest) with
      | false => rfl
      | true => exact absurd hx h1
    unfold removeAll removeAllAux
    rw [if_neg (by simp [hb])]
    exact congrArg (c :: ·) (ih h2)

/-- A list is a prefix of itself extended by anything. -/
theorem isPrefixOf_self_append : ∀ (l t : List Char), l.isPrefixOf (l ++ t) = true := by
  intro l
  induction l with
  | nil => intro t; simp [List.isPrefixOf]
  | cons c cs ih => intro t; simp [List.isPrefixOf, ih]

/-- Stripping the comment opener from an opener-led comment yields the
body, provided the body itself does not contain the opener again. -/
theorem removeAll_opener (body : List Char)
    (hno : splitFirst commentOpen body = none) :
    removeAll commentOpen (commentOpen ++ body) = body := by
  have hshape : commentOpen ++ body = '<' :: ("!-- ".data ++ body) := rfl
  have hpre : commentOpen.isPrefixOf ('<' :: ("!-- ".data ++ body)) = true := by
    rw [← hshape]
    exact isPrefixOf_self_append commentOpen body
  rw [removeAll, hshape, removeAllAux, if_pos ⟨by decide, hpre⟩]
  rw [removeAllAux_skip]
  have hdrop : ("!-- ".data ++ body).drop (commentOpen.length - 1) = body :=
    List.drop_left' rfl
  rw [hdrop]
  exact removeAll_no_occurrence commentOpen body hno

/-- Length of a padded telegram part in the padding case. -/
theorem padTelegramPart_length (tp : List Char) (h : tp.length + 4 < 165) :
    (padTelegramPart tp).length = 161 := by
  unfold padTelegramPart
  rw [if_pos h]
  simp only [List.length_append, List.length_replicate]
  omega

/-- The two branch equations of `renderTelegramLine` for a non-empty
comment, phrased with the semicolon-position value `scp`. -/
theorem renderTelegramLine_eq (tp cd : List Char) (scp : Nat) (hc : cd ≠ [])
    (hscp : scp = (padTelegramPart tp).length + 4 + 5 +
                  (pyStrip (beforeSemi (removeAll commentOpen cd))).length) :
    (scp < 183 →
      renderTelegramLine tp (some cd) =
        sp4 ++ padTelegramPart tp ++ commentOpen ++
          (pyStrip (beforeSemi (removeAll commentOpen cd)) ++
            List.replicate (183 - scp) ' ') ++ "; ".data ++
          pyStrip (afterSemi (removeAll commentOpen cd)) ++ ['\n']) ∧
    (183 ≤ scp →
      renderTelegramLine tp (some cd) =
        sp4 ++ padTelegramPart tp ++ removeAll commentOpen cd ++ ['\n']) := by
  subst hscp
  constructor
  · intro h
    simp only [renderTelegramLine]
    rw [if_pos hc, if_pos h]
  · intro h
    simp only [renderTelegramLine]
    rw [if_pos hc, if_neg (by omega)]

/-!
## Claims about the renderer (C8, C10)
-/

set_option maxRecDepth 40000 in
/-- C8, counterexample: at a concrete telegram line that receives
padding, the claim's 1-indexed columns are off by one.  The comment
opener `<!--` does not begin at 1-indexed column 165 (0-based index 164,
where a padding space sits) but at 1-indexed column 166 (0-based index
165), and the aligned semicolon does not land at 1-indexed column 183
(0-based index 182) but at 1-indexed column 184 (0-based index 183). -/
theorem comment_alignment_counterexample :
    ((processTelegramLine (some "<!-- GA: 1/2/3 ; QA: 1.1.1 -->")
        "  <Telegram Timestamp=\"X\" RawData=\"0102\"></Telegram>\n").data.drop 164).take 5 ≠
      commentOpen ∧
    ((processTelegramLine (some "<!-- GA: 1/2/3 ; QA: 1.1.1 -->")
        "  <Telegram Timestamp=\"X\" RawData=\"0102\"></Telegram>\n").data.drop 182).take 1 ≠
      [';'] ∧
    ((processTelegramLine (some "<!-- GA: 1/2/3 ; QA: 1.1.1 -->")
        "  <Telegram Timestamp=\"X\" RawData=\"0102\"></Telegram>\n").data.drop 165).take 5 =
      commentOpen ∧
    ((processTelegramLine (some "<!-- GA: 1/2/3 ; QA: 1.1.1 -->")
        "  <Telegram Timestamp=\"X\" RawData=\"0102\"></Telegram>\n").data.drop 183).take 1 =
      [';'] := by
  refine ⟨by decide, by decide, by decide, by decide⟩

/-- C8 (amended): a telegram line (containing the telegram markers and
splitting into exactly two parts on `RawData="`) with a non-empty
annotation is rewritten as a self-closing element indented with exactly
4 spaces; when the element is shorter than the first target it is padded
so that 165 characters precede the comment opener (the opener begins at
1-indexed column 166, not 165), and when the rebuilt comment fits,
spaces are inserted after the group-address field so that 183 characters
precede the semicolon (it lands at 1-indexed column 184, not 183); a
line already at or past a target column receives no padding and nothing
is truncated; lines with an empty (or exhausted) annotation are emitted
without any comment suffix. -/
theorem comment_alignment (line c : String) (p0 p1 tp : List Char) (scp : Nat)
    (hT : lineIsTelegram line = true)
    (hsp : splitFirst rdPat (pyLStrip line.data) = some (p0, p1))
    (hone : splitFirst rdPat p1 = none)
    (hc : c.data ≠ [])
    (htp : tp = buildTelegramPart p0 p1)
    (hscp : scp = (padTelegramPart tp).length + 4 + 5 +
                  (pyStrip (beforeSemi (removeAll commentOpen c.data))).length) :
    processTelegramLine (some c) line =
      String.mk (renderTelegramLine tp (some c.data)) ∧
    (scp < 183 →
      renderTelegramLine tp (some c.data) =
        sp4 ++ padTelegramPart tp ++ commentOpen ++
          (pyStrip (beforeSemi (removeAll commentOpen c.data)) ++
            List.replicate (183 - scp) ' ') ++ "; ".data ++
          pyStrip (afterSemi (removeAll commentOpen c.data)) ++ ['\n']) ∧
    (183 ≤ scp →
      renderTelegramLine tp (some c.data) =
        sp4 ++ padTelegramPart tp ++ removeAll commentOpen c.data ++ ['\n']) ∧
    (tp.length + 4 < 165 → scp < 183 →
      ((renderTelegramLine tp (some c.data)).drop 165).take 5 = commentOpen) ∧
    (scp < 183 →
      ((renderTelegramLine tp (some c.data)).drop 183).take 1 = [';']) ∧
    (165 ≤ tp.length + 4 → padTelegramPart tp = tp) ∧
    processTelegramLine none line = String.mk (sp4 ++ tp ++ ['\n']) ∧
    processTelegramLine (some "") line = String.mk (sp4 ++ tp ++ ['\n']) := by
  obtain ⟨hlt, hge⟩ := renderTelegramLine_eq tp c.data scp hc hscp
  have hproc : ∀ c? : Option String, processTelegramLine c? line =
      String.mk (renderTelegramLine (buildTelegramPart p0 p1) (c?.map String.data)) := by
    intro c?
    simp only [processTelegramLine, if_pos hT, hsp, hone]
  refine ⟨?_, hlt, hge, ?_, ?_, ?_, ?_, ?_⟩
  · rw [hproc (some c), htp]; rfl
  · intro hpad hfit
    rw [hlt hfit]
    have hlen : (sp4 ++ padTelegramPart tp).length = 165 := by
      simp [sp4, padTelegramPart_length tp hpad]
    have hassoc : sp4 ++ padTelegramPart tp ++ commentOpen ++
        (pyStrip (beforeSemi (removeAll commentOpen c.data)) ++
          List.replicate (183 - scp) ' ') ++ "; ".data ++
        pyStrip (afterSemi (removeAll commentOpen c.data)) ++ ['\n'] =
        (sp4 ++ padTelegramPart tp) ++
          (commentOpen ++
            ((pyStrip (beforeSemi (removeAll commentOpen c.data)) ++
              List.replicate (183 - scp) ' ') ++ "; ".data ++
             pyStrip (afterSemi (removeAll commentOpen c.data)) ++ ['\n'])) := by
      simp [List.append_assoc]
    rw [hassoc, List.drop_left' hlen]
    exact List.take_left' rfl
  · intro hfit
    rw [hlt hfit]
    have hscplt : (padTelegramPart tp).length + 4 + 5 +
        (pyStrip (beforeSemi (removeAll commentOpen c.data))).length < 183 := by
      omega
    have hA : (sp4 ++ padTelegramPart tp ++ commentOpen ++
        (pyStrip (beforeSemi (removeAll commentOpen c.data)) ++
          List.replicate (183 - scp) ' ')).length = 183 := by
      have h5 : commentOpen.length = 5 := rfl
      have h4 : sp4.length = 4 := rfl
      simp only [List.length_append, List.length_replicate, h4, h5]
      omega
    have hassoc : sp4 ++ padTelegramPart tp ++ commentOpen ++
        (pyStrip (beforeSemi (removeAll commentOpen c.data)) ++
          List.replicate (183 - scp) ' ') ++ "; ".data ++
        pyStrip (afterSemi (removeAll commentOpen c.data)) ++ ['\n'] =
        (sp4 ++ padTelegramPart tp ++ commentOpen ++
          (pyStrip (beforeSemi (removeAll commentOpen c.data)) ++
            List.replicate (183 - scp) ' ')) ++
          (';' :: (' ' :: (pyStrip (afterSemi (removeAll commentOpen c.data)) ++ ['\n']))) := by
      simp [List.append_assoc]
    rw [hassoc, List.drop_left' hA]
    rfl
  · intro hlong
    unfold padTelegramPart
    rw [if_neg (by omega)]
  · rw [hproc none, htp]; rfl
  · rw [hproc (some ""), htp]
    simp [renderTelegramLine]

set_option maxRecDepth 40000 in
/-- C8 (amended), witness: the amended theorem applied at the concrete
padded line of the counterexample, showing the opener after 165
characters and the semicolon after 183. -/
theorem comment_alignment_witness :
    ((processTelegramLine (some "<!-- GA: 1/2/3 ; QA: 1.1.1 -->")
        "  <Telegram Timestamp=\"X\" RawData=\"0102\"></Telegram>\n").data.drop 165).take 5 =
      commentOpen ∧
    ((processTelegramLine (some "<!-- GA: 1/2/3 ; QA: 1.1.1 -->")
        "  <Telegram Timestamp=\"X\" RawData=\"0102\"></Telegram>\n").data.drop 183).take 1 =
      [';'] := by
  have h := comment_alignment
    "  <Telegram Timestamp=\"X\" RawData=\"0102\"></Telegram>\n"
    "<!-- GA: 1/2/3 ; QA: 1.1.1 -->"
    "<Telegram Timestamp=\"X\" ".data
    "0102\"></Telegram>\n".data
    (buildTelegramPart "<Telegram Timestamp=\"X\" ".data "0102\"></Telegram>\n".data)
    179
    (by decide) (by decide) (by decide) (by decide) rfl (by decide)
  constructor
  · rw [h.1]
    exact h.2.2.2.1 (by decide) (by decide)
  · rw [h.1]
    exact h.2.2.2.2.1 (by decide)

/-- C10: when the computed semicolon position is already at or past the
target column — so no padding is inserted — the emitted annotation
suffix is exactly the comment text with its leading `<!-- ` opener
removed and never restored (so the line's trailing annotation is not a
well-formed XML comment); the opener is present in the output exactly
when padding before the semicolon was inserted. -/
theorem opener_stripped (tp body : List Char)
    (hno : splitFirst commentOpen body = none) :
    (183 ≤ (padTelegramPart tp).length + 4 + 5 + (pyStrip (beforeSemi body)).length →
      renderTelegramLine tp (some (commentOpen ++ body)) =
        sp4 ++ padTelegramPart tp ++ body ++ ['\n']) ∧
    ((padTelegramPart tp).length + 4 + 5 + (pyStrip (beforeSemi body)).length < 183 →
      renderTelegramLine tp (some (commentOpen ++ body)) =
        sp4 ++ padTelegramPart tp ++ commentOpen ++
          (pyStrip (beforeSemi body) ++
            List.replicate (183 - ((padTelegramPart tp).length + 4 + 5 +
              (pyStrip (beforeSemi body)).length)) ' ') ++ "; ".data ++
          pyStrip (afterSemi body) ++ ['\n']) := by
  have hrm : removeAll commentOpen (commentOpen ++ body) = body :=
    removeAll_opener body hno
  have hne : commentOpen ++ body ≠ [] := by
    intro hcontra
    exact List.noConfusion (show ('<' :: ("!-- ".data ++ body)) = ([] : List Char) from hcontra)
  obtain ⟨hlt, hge⟩ := renderTelegramLine_eq tp (commentOpen ++ body)
    ((padTelegramPart tp).length + 4 + 5 + (pyStrip (beforeSemi body)).length) hne
    (by rw [hrm])
  constructor
  · intro h
    rw [hge h, hrm]
  · intro h
    rw [hlt h, hrm]

set_option maxRecDepth 40000 in
/-- C10, witness: an `IGNORE` annotation (whose group-address field is
long) gets no padding, and the emitted line carries the comment body
without the `<!-- ` opener. -/
theorem opener_stripped_witness :
    renderTelegramLine "<Telegram RawData=\"01\" />".data
        (some (commentOpen ++ "GA: IGNORE (unbestimmt) ; QA: 1.1.1 -->".data)) =
      sp4 ++ padTelegramPart "<Telegram RawData=\"01\" />".data ++
        "GA: IGNORE (unbestimmt) ; QA: 1.1.1 -->".data ++ ['\n'] :=
  (opener_stripped "<Telegram RawData=\"01\" />".data
      "GA: IGNORE (unbestimmt) ; QA: 1.1.1 -->".data (by decide)).1 (by decide)

end KnxSplit
